import Mathlib

/-!
Verification of the socialclip downloader application.

The development shallowly embeds the pure decision logic of
socialclip_downloader.py: the title sanitiser, the collision-free
filename chooser, the ffprobe height probe, and the two worker
threads (DownloadWorker.run and ConvertFileWorker.run).  External
effects (the yt-dlp extractor, the ffmpeg/ffprobe binaries and the
filesystem) are modelled as oracles: the filesystem is the list of
existing paths, each subprocess output is an Option String (none =
the call raised, caught by the except around it), and a worker run
is the list of events it produces in order (status-signal emissions,
external-process invocations and the final finished-signal emission).
-/

set_option maxHeartbeats 1000000
set_option linter.unnecessarySeqFocus false

/-! ## Python character classes

pyIsSpace is the character set of str.isspace / str.strip / the re
class \s for unicode strings (the ASCII part plus the unicode
whitespace code points). -/

/-- Characters Python treats as whitespace (str.strip, str.isspace, re \s). -/
def pyIsSpace (c : Char) : Bool :=
  [' ', '\t', '\n', '\x0b', '\x0c', '\r', '\x1c', '\x1d', '\x1e', '\x1f',
   '\x85', '\xa0', ' ', ' ', ' ', ' ', ' ', ' ',
   ' ', ' ', ' ', ' ', ' ', ' ',
   ' ', ' ', ' ', ' ', '　'].contains c

/-- Line terminators of str.splitlines. -/
def pyIsLineTerm (c : Char) : Bool :=
  ['\n', '\r', '\x0b', '\x0c', '\x1c', '\x1d', '\x1e',
   '\x85', ' ', ' '].contains c

/-- Python word characters, the re class \w on ASCII text: a-z, A-Z, 0-9, underscore. -/
def pyWordChar (c : Char) : Bool :=
  (97 ≤ c.toNat && c.toNat ≤ 122) || (65 ≤ c.toNat && c.toNat ≤ 90) ||
  (48 ≤ c.toNat && c.toNat ≤ 57) || c == '_'

/-- The character class of clean_title line 24: backslash / : * ? quote angle brackets pipe. -/
def specialChar (c : Char) : Bool :=
  ['\\', '/', ':', '*', '?', '"', '<', '>', '|'].contains c

/-- The character class of clean_title line 23. -/
def hashAtChar (c : Char) : Bool :=
  ['#', '@'].contains c

/-- str.strip() on a character list: drop Python whitespace from both ends. -/
def pyStripL (l : List Char) : List Char :=
  ((l.dropWhile pyIsSpace).reverse.dropWhile pyIsSpace).reverse

/-- str.strip() on a string. -/
def pyStrip (s : String) : String :=
  String.mk (pyStripL s.data)

/-- The first element of str.splitlines() of a non-empty string: the characters
before the first line terminator. -/
def pyFirstLine (s : String) : String :=
  String.mk (s.data.takeWhile (fun c => !(pyIsLineTerm c)))

/-! ## Python int() on a string

int(s) strips whitespace, accepts an optional sign and a non-empty run
of decimal digits in which single underscores may separate digits; on
anything else it raises ValueError, modelled as none.  (Non-ASCII
unicode decimal digits, which int() also accepts, are not modelled:
no claim concerns them.) -/

/-- The value of an ASCII decimal digit. -/
def digitVal? (c : Char) : Option Nat :=
  if 48 ≤ c.toNat ∧ c.toNat ≤ 57 then some (c.toNat - 48) else none

/-- Digits after the first one: single underscores may separate digits. -/
def pyDigitsAux : Nat → List Char → Option Nat
  | acc, [] => some acc
  | acc, '_' :: c :: rest =>
    match digitVal? c with
    | some v => pyDigitsAux (acc * 10 + v) rest
    | none => none
  | acc, c :: rest =>
    match digitVal? c with
    | some v => pyDigitsAux (acc * 10 + v) rest
    | none => none

/-- A non-empty digit run with optional underscore separators. -/
def pyDigits : List Char → Option Nat
  | [] => none
  | c :: rest =>
    match digitVal? c with
    | some v => pyDigitsAux v rest
    | none => none

/-- Python int(s) for a string s, none when int() would raise ValueError. -/
def pyInt (s : String) : Option Int :=
  match pyStripL s.data with
  | '+' :: ds => (pyDigits ds).map (fun n => (n : Int))
  | '-' :: ds => (pyDigits ds).map (fun n => -(n : Int))
  | ds => (pyDigits ds).map (fun n => (n : Int))

/-! ## clean_title (source lines 19-27) -/

/-- One maximal run of whitespace becomes a single space: re.sub of
the pattern (backslash s plus) with one space.  The boolean records
whether the previous character was whitespace. -/
def collapseWS : Bool → List Char → List Char
  | _, [] => []
  | prevWS, c :: rest =>
    if pyIsSpace c then
      if prevWS then collapseWS true rest
      else ' ' :: collapseWS true rest
    else c :: collapseWS false rest

/-- The sanitising pipeline of clean_title, lines 22-26: encode to ASCII
dropping the rest, delete hash and at-sign, replace the special filename
characters by spaces, delete everything that is not a word character,
whitespace or hyphen, collapse whitespace runs and strip. -/
def sanitize (l : List Char) : List Char :=
  let titleAscii := l.filter (fun c => c.toNat ≤ 127)
  let noTag := titleAscii.filter (fun c => !(hashAtChar c))
  let spaced := noTag.map (fun c => if specialChar c then ' ' else c)
  let wordOnly := spaced.filter (fun c => pyWordChar c || pyIsSpace c || c == '-')
  pyStripL (collapseWS false wordOnly)

/-- clean_title (source lines 19-27): empty input gives "video";
otherwise the sanitised text truncated to 120 characters, and "video"
again when that is empty. -/
def clean_title (title : String) : String :=
  if title = "" then "video"
  else
    let t := (sanitize title.data).take 120
    if t = [] then "video" else String.mk t

/-- The base filename built by MainWindow.on_download (lines 377-381):
clean_title of the title, then the uploader part when the channel
checkbox is ticked and the uploader string is non-empty, then the
timestamp part when the timestamp checkbox is ticked. -/
def buildBaseFilename (title uploader : String) (channelChecked timestampChecked : Bool)
    (timestamp : String) : String :=
  let b1 := clean_title title
  let b2 := if channelChecked ∧ uploader ≠ "" then b1 ++ "_" ++ clean_title uploader else b1
  if timestampChecked then b2 ++ "_" ++ timestamp else b2

/-- The characters the spec forbids in a sanitised title. -/
def forbiddenChars : List Char :=
  ['\\', '/', ':', '*', '?', '"', '<', '>', '|', '#', '@']

/-- The resolutions the two GUI combo boxes offer (lines 265 and 311). -/
def resolutionOptions : List Int := [720, 1080, 1440, 2160]

/-! ## Path helpers (os.path on posix) -/

/-- Whether a path string starts with the path separator. -/
def startsWithSep (s : String) : Bool :=
  match s.data with
  | c :: _ => c == '/'
  | [] => false

/-- Whether a path string ends with the path separator. -/
def endsWithSep (s : String) : Bool :=
  match s.data.getLast? with
  | some c => c == '/'
  | none => false

/-- os.path.join(a, b) on posix for two components. -/
def pjoin (a b : String) : String :=
  if startsWithSep b then b
  else if a = "" ∨ endsWithSep a then a ++ b
  else a ++ "/" ++ b

/-- Splits a list at the LAST occurrence of c: some (pre, post) with
l = pre ++ c :: post and c not in post, or none when c does not occur. -/
def splitAtLast (c : Char) : List Char → Option (List Char × List Char)
  | [] => none
  | a :: rest =>
    match splitAtLast c rest with
    | some (pre, post) => some (a :: pre, post)
    | none => if a = c then some ([], rest) else none

/-- The root part of os.path.splitext applied to a basename: the last dot
splits off the extension unless every character before it is a dot. -/
def splitextBase (b : List Char) : List Char :=
  match splitAtLast '.' b with
  | none => b
  | some (pre, _) => if pre.any (fun c => c ≠ '.') then pre else b

/-- os.path.splitext(p)[0] on posix: the extension is found after the last
slash, and a basename of leading dots keeps them. -/
def splitextRoot (p : String) : String :=
  match splitAtLast '/' p.data with
  | none => String.mk (splitextBase p.data)
  | some (d, b) => String.mk (d ++ '/' :: splitextBase b)

/-! ## Decimal rendering of integers (Python str / f-strings)

natDigits renders a Nat in decimal.  The recursion is structural on a
fuel argument; fuel n+1 always suffices for n, which the value
round-trip below proves. -/

/-- The character of one decimal digit. -/
def decDigitChar : Nat → Char
  | 0 => '0' | 1 => '1' | 2 => '2' | 3 => '3' | 4 => '4'
  | 5 => '5' | 6 => '6' | 7 => '7' | 8 => '8' | 9 => '9'
  | _ => '*'

/-- Decimal digits of n, most significant first, with structural fuel. -/
def natDigitsAux : Nat → Nat → List Char
  | 0, _ => []
  | fuel + 1, n =>
    if n < 10 then [decDigitChar n]
    else natDigitsAux fuel (n / 10) ++ [decDigitChar (n % 10)]

/-- Decimal digits of n, most significant first. -/
def natDigits (n : Nat) : List Char := natDigitsAux (n + 1) n

/-- Python str(n) for a natural number. -/
def natStr (n : Nat) : String := String.mk (natDigits n)

/-- Python str(i) for an int: a minus sign before the digits when negative. -/
def intStr (i : Int) : String :=
  if i < 0 then "-" ++ natStr i.natAbs else natStr i.toNat

/-- The decimal value of a digit list (left fold); the inverse of natDigits. -/
def natVal (l : List Char) : Nat :=
  l.foldl (fun a c => a * 10 + (c.toNat - 48)) 0

/-- Value of the digit character of d, for d below ten. -/
def decDigitChar_val : ∀ d, d < 10 → (decDigitChar d).toNat - 48 = d := by decide

/-- natDigitsAux round-trips through natVal whenever the fuel covers the number. -/
def natVal_natDigitsAux : ∀ (fuel n : Nat), n < 10 ^ fuel →
    natVal (natDigitsAux fuel n) = n := by
  intro fuel
  induction fuel with
  | zero => intro n h; interval_cases n; rfl
  | succ f ih =>
    intro n h
    rw [natDigitsAux]
    by_cases h10 : n < 10
    · simp only [if_pos h10]
      show 0 * 10 + ((decDigitChar n).toNat - 48) = n
      rw [decDigitChar_val n h10]; omega
    · simp only [if_neg h10]
      have hdiv : n / 10 < 10 ^ f := by
        rw [Nat.div_lt_iff_lt_mul (by omega)]
        calc n < 10 ^ (f + 1) := h
        _ = 10 ^ f * 10 := by rw [Nat.pow_succ]
      have hv := ih (n / 10) hdiv
      show natVal (natDigitsAux f (n / 10) ++ [decDigitChar (n % 10)]) = n
      unfold natVal
      rw [List.foldl_append]
      show natVal (natDigitsAux f (n / 10)) * 10 + ((decDigitChar (n % 10)).toNat - 48) = n
      rw [hv, decDigitChar_val (n % 10) (Nat.mod_lt n (by omega))]
      omega

/-- natDigits round-trips through natVal. -/
def natVal_natDigits (n : Nat) : natVal (natDigits n) = n := by
  have h1 : n < 10 ^ n := Nat.lt_pow_self (by omega) n
  have h2 : (10 : Nat) ^ n ≤ 10 ^ (n + 1) :=
    Nat.pow_le_pow_right (by omega) (Nat.le_succ n)
  exact natVal_natDigitsAux (n + 1) n (by omega)

/-- natDigits is injective: distinct numbers render differently. -/
def natDigits_inj : ∀ m n : Nat, natDigits m = natDigits n → m = n := by
  intro m n h
  have := natVal_natDigits m
  rw [h, natVal_natDigits n] at this
  omega

/-- Every character natDigitsAux emits is a decimal digit, never a dot. -/
def natDigitsAux_no_dot : ∀ (fuel n : Nat), ∀ c ∈ natDigitsAux fuel n, c ≠ '.' := by
  intro fuel
  induction fuel with
  | zero => intro n c hc; simp [natDigitsAux] at hc
  | succ f ih =>
    intro n c hc
    rw [natDigitsAux] at hc
    by_cases h10 : n < 10
    · rw [if_pos h10] at hc
      simp only [List.mem_singleton] at hc
      subst hc
      interval_cases n <;> decide
    · rw [if_neg h10] at hc
      rw [List.mem_append] at hc
      rcases hc with hc | hc
      · exact ih (n / 10) c hc
      · simp only [List.mem_singleton] at hc
        subst hc
        have : n % 10 < 10 := Nat.mod_lt n (by omega)
        interval_cases h : (n % 10) <;> simp_all <;> decide

/-- If two lists agree after a dot marker and neither left part holds a dot,
the left parts agree. -/
def split_no_dot : ∀ (u u' v v' : List Char), (∀ c ∈ u, c ≠ '.') → (∀ c ∈ u', c ≠ '.') →
    u ++ '.' :: v = u' ++ '.' :: v' → u = u' := by
  intro u
  induction u with
  | nil =>
    intro u' v v' _ hu' h
    cases u' with
    | nil => rfl
    | cons a rest =>
      simp only [List.nil_append, List.cons_append, List.cons.injEq] at h
      exact absurd h.1.symm (hu' a (by simp))
  | cons a rest ih =>
    intro u' v v' hu hu' h
    cases u' with
    | nil =>
      simp only [List.cons_append, List.nil_append, List.cons.injEq] at h
      exact absurd h.1 (hu a (by simp))
    | cons a' rest' =>
      simp only [List.cons_append, List.cons.injEq] at h
      have := ih rest' v v' (fun c hc => hu c (by simp [hc]))
        (fun c hc => hu' c (by simp [hc])) h.2
      rw [h.1, this]

/-! ## make_unique_filepath (source lines 60-76) -/

/-- The i-th numeric-suffix candidate of the while loop at lines 71-76. -/
def mkNumCand (save_dir base_filename ext : String) (i : Nat) : String :=
  pjoin save_dir (base_filename ++ "_" ++ natStr i ++ "." ++ ext)

/-- mkNumCand is injective in the numeric suffix. -/
def mkNumCand_inj (save_dir base_filename ext : String) :
    ∀ i j : Nat, mkNumCand save_dir base_filename ext i = mkNumCand save_dir base_filename ext j →
      i = j := by
  intro i j h
  unfold mkNumCand at h
  set bi := base_filename ++ "_" ++ natStr i ++ "." ++ ext with hbi
  set bj := base_filename ++ "_" ++ natStr j ++ "." ++ ext with hbj
  have hdata : ∀ k : Nat,
      (base_filename ++ "_" ++ natStr k ++ "." ++ ext).data
        = base_filename.data ++ '_' :: (natDigits k ++ '.' :: ext.data) := by
    intro k
    simp [String.data_append, natStr]
  have hstart : startsWithSep bi = startsWithSep bj := by
    unfold startsWithSep
    rw [hbi, hbj, hdata i, hdata j]
    cases base_filename.data <;> simp
  have hinner : bi = bj := by
    unfold pjoin at h
    by_cases h1 : startsWithSep bi
    · rw [if_pos h1] at h; rw [hstart] at h1; rw [if_pos h1] at h; exact h
    · rw [if_neg h1] at h
      have h1' : ¬ startsWithSep bj = true := by rw [← hstart]; exact h1
      rw [if_neg h1'] at h
      by_cases h2 : save_dir = "" ∨ endsWithSep save_dir
      · rw [if_pos h2, if_pos h2] at h
        apply String.ext
        have := congrArg String.data h
        simp only [String.data_append] at this
        exact List.append_cancel_left this
      · rw [if_neg h2, if_neg h2] at h
        apply String.ext
        have := congrArg String.data h
        simp only [String.data_append, List.append_assoc] at this
        exact List.append_cancel_left (List.append_cancel_left this)
  have hlists : (base_filename ++ "_" ++ natStr i ++ "." ++ ext).data
      = (base_filename ++ "_" ++ natStr j ++ "." ++ ext).data := by
    rw [← hbi, ← hbj, hinner]
  rw [hdata i, hdata j] at hlists
  have hmid := List.append_cancel_left hlists
  simp only [List.cons.injEq, true_and] at hmid
  have hdig : natDigits i = natDigits j :=
    split_no_dot (natDigits i) (natDigits j) ext.data ext.data
      (natDigitsAux_no_dot (i + 1) i) (natDigitsAux_no_dot (j + 1) j) hmid
  exact natDigits_inj i j hdig

/-- Among any fs.length + 1 consecutive numeric candidates one is free:
the candidates are pairwise distinct and fs is finite. -/
def freeGapExists (fs : List String) (save_dir base_filename ext : String) (i : Nat) :
    ∃ d : Nat, fs.contains (mkNumCand save_dir base_filename ext (i + d)) = false := by
  by_contra hall
  push_neg at hall
  have hocc : ∀ d : Nat, mkNumCand save_dir base_filename ext (i + d) ∈ fs := by
    intro d
    have h := hall d
    have : fs.contains (mkNumCand save_dir base_filename ext (i + d)) = true := by
      cases hc : fs.contains (mkNumCand save_dir base_filename ext (i + d))
      · exact absurd hc h
      · rfl
    exact List.elem_iff.mp this
  set L : List String :=
    (List.range (fs.length + 1)).map (fun d => mkNumCand save_dir base_filename ext (i + d))
    with hL
  have hnodup : L.Nodup := by
    apply List.Nodup.map _ (List.nodup_range (fs.length + 1))
    intro a b hab
    have := mkNumCand_inj save_dir base_filename ext (i + a) (i + b) hab
    omega
  have hsub : L.toFinset ⊆ fs.toFinset := by
    intro x hx
    rw [List.mem_toFinset] at hx ⊢
    rw [hL, List.mem_map] at hx
    obtain ⟨d, _, rfl⟩ := hx
    exact hocc d
  have hcard1 : L.toFinset.card = fs.length + 1 := by
    rw [List.toFinset_card_of_nodup hnodup, hL, List.length_map, List.length_range]
  have hcard2 : fs.toFinset.card ≤ fs.length := List.toFinset_card_le fs
  have := Finset.card_le_card hsub
  omega

/-- Distance from index i to the nearest free numeric candidate at or above i. -/
def leastFreeGap (fs : List String) (save_dir base_filename ext : String) (i : Nat) : Nat :=
  Nat.find (freeGapExists fs save_dir base_filename ext i)

/-- The gap shrinks by one when the candidate at i is occupied. -/
def leastFreeGap_succ_lt (fs : List String) (save_dir base_filename ext : String) (i : Nat)
    (h : fs.contains (mkNumCand save_dir base_filename ext i) = true) :
    leastFreeGap fs save_dir base_filename ext (i + 1) <
      leastFreeGap fs save_dir base_filename ext i := by
  have hspec := Nat.find_spec (freeGapExists fs save_dir base_filename ext i)
  set g := leastFreeGap fs save_dir base_filename ext i with hg
  have hgpos : 0 < g := by
    rcases Nat.eq_zero_or_pos g with h0 | h1
    · exfalso
      have : fs.contains (mkNumCand save_dir base_filename ext (i + 0)) = false := by
        rw [← h0]; exact hspec
      simp only [Nat.add_zero] at this
      rw [h] at this
      exact Bool.true_eq_false.mp this
    · exact h1
  have hle : leastFreeGap fs save_dir base_filename ext (i + 1) ≤ g - 1 := by
    apply Nat.find_le
    have : i + 1 + (g - 1) = i + g := by omega
    rw [this]
    exact hspec
  omega

/-- The while loop of make_unique_filepath (lines 71-76): starting at index i,
return the first numeric-suffix candidate that does not exist. -/
def findFreeIdx (fs : List String) (save_dir base_filename ext : String) (i : Nat) : String :=
  if fs.contains (mkNumCand save_dir base_filename ext i) = false then
    mkNumCand save_dir base_filename ext i
  else
    findFreeIdx fs save_dir base_filename ext (i + 1)
termination_by leastFreeGap fs save_dir base_filename ext i
decreasing_by
  rename_i h
  apply leastFreeGap_succ_lt
  revert h
  cases fs.contains (mkNumCand save_dir base_filename ext i)
  · intro h; exact absurd rfl h
  · intro _; rfl

/-- make_unique_filepath (source lines 60-76).  The filesystem is the list
of existing paths; os.path.exists(p) is fs.contains p.  The fallback id is
an Option String, Python None being none, and the truthiness test at
line 66 makes an empty fallback id behave like None. -/
def make_unique_filepath (fs : List String) (save_dir base_filename ext : String)
    (fallback_id : Option String) : String :=
  let candidate := pjoin save_dir (base_filename ++ "." ++ ext)
  if fs.contains candidate = false then candidate
  else
    match fallback_id with
    | some fid =>
      if fid ≠ "" then
        let candidate2 := pjoin save_dir (base_filename ++ "_" ++ fid ++ "." ++ ext)
        if fs.contains candidate2 = false then candidate2
        else findFreeIdx fs save_dir base_filename ext 1
      else findFreeIdx fs save_dir base_filename ext 1
    | none => findFreeIdx fs save_dir base_filename ext 1

/-! ## External processes and worker events -/

/-- One external-process invocation, with the data the source puts in the
command line: the yt-dlp download, the two height probes of
ffprobe_get_height, and the three ffmpeg conversions. -/
inductive ExtProc where
  | ydlDownload (outtmpl : String)
  | probeFfprobe (path : String)
  | probeFfmpeg (path : String)
  | ffmpegMp3 (input output : String)
  | ffmpegWav (input output : String)
  | ffmpegScale (input output : String) (res : Int)
deriving DecidableEq

/-- One observable step of a worker run: a status_signal emission, the
finished_signal emission, or an external-process invocation. -/
inductive Event where
  | status (msg : String)
  | finished (msg : String)
  | proc (p : ExtProc)
deriving DecidableEq

/-- The finished_signal messages of a run, in order. -/
def finishedMsgs (evs : List Event) : List String :=
  evs.filterMap fun e =>
    match e with
    | .finished m => some m
    | _ => none

/-- The status_signal messages of a run, in order. -/
def statusMsgs (evs : List Event) : List String :=
  evs.filterMap fun e =>
    match e with
    | .status m => some m
    | _ => none

/-- The external-process invocations of a run, in order. -/
def procsOf (evs : List Event) : List ExtProc :=
  evs.filterMap fun e =>
    match e with
    | .proc p => some p
    | _ => none

/-- Whether an external call is a video transcode (the ffmpeg scale command). -/
def isScaleProc (p : ExtProc) : Bool :=
  match p with
  | .ffmpegScale _ _ _ => true
  | _ => false

/-- Whether a run invokes a video-transcoding subprocess. -/
def hasTranscode (evs : List Event) : Bool :=
  (procsOf evs).any isScaleProc

/-! ## ffprobe_get_height (source lines 36-58)

Each of the two probe subprocesses is an oracle Option String: none when
subprocess.check_output raised (caught by the except around it), some raw
when it returned output raw (already decoded). -/

/-- One try block of ffprobe_get_height: strip the output; when non-empty
take the first line, strip it and parse it with int(); any failure on the
way (a raise, empty output, or a ValueError from int) yields none. -/
def probeAttempt (raw : Option String) : Option Int :=
  match raw with
  | none => none
  | some rawOut =>
    let out := pyStrip rawOut
    if out.data = [] then none
    else pyInt (pyStrip (pyFirstLine out))

/-- ffprobe_get_height: the parsed height of the first probe that yields
one, else 0; paired with the list of subprocess invocations attempted
(ffprobe always, the ffmpeg fallback when the first try block fails). -/
def ffprobe_get_height (path : String) (raw1 raw2 : Option String) : Int × List ExtProc :=
  match probeAttempt raw1 with
  | some h => (h, [.probeFfprobe path])
  | none =>
    match probeAttempt raw2 with
    | some h => (h, [.probeFfprobe path, .probeFfmpeg path])
    | none => (0, [.probeFfprobe path, .probeFfmpeg path])

/-! ## DownloadWorker.run (source lines 92-149) -/

/-- The oracles of one DownloadWorker run: the outcome of
ydl.extract_info(url, download=True) together with prepare_filename
(error e when it raised with message e, ok (downloaded_file, height)
with the info height, None when the key is absent), and the raw outputs
of the two possible probe subprocesses. -/
structure DlEnv where
  extractOutcome : Except String (String × Option Int)
  probeRaw1 : Option String
  probeRaw2 : Option String

/-- Line 109: info.get(height) or ffprobe_get_height(downloaded_file).
Python or takes the probe when the info height is missing or zero. -/
def detectHeight (env : DlEnv) (downloaded_file : String) (info_height : Option Int) :
    Int × List ExtProc :=
  match info_height with
  | some h =>
    if h = 0 then ffprobe_get_height downloaded_file env.probeRaw1 env.probeRaw2
    else (h, [])
  | none => ffprobe_get_height downloaded_file env.probeRaw1 env.probeRaw2

/-- DownloadWorker.run as its event trace.  The try at line 93 catches
every exception; the only modelled raising site is the extractor call
(the ffmpeg invocations use subprocess.run without check and the
remaining statements are pure). -/
def DownloadWorker.run (env : DlEnv) (outtmpl : String) (convert : Bool)
    (target_resolution : Int) (output_type : String) : List Event :=
  match env.extractOutcome with
  | .error e =>
    [.status "Starting download...", .proc (.ydlDownload outtmpl),
     .finished ("Error during download/conversion: " ++ e)]
  | .ok (downloaded_file, info_height) =>
    let hp := detectHeight env downloaded_file info_height
    let final_height := hp.1
    let pre : List Event :=
      [.status "Starting download...", .proc (.ydlDownload outtmpl),
       .status ("Downloaded: " ++ downloaded_file)]
      ++ hp.2.map Event.proc
      ++ [.status ("Detected source height: " ++ intStr final_height ++ "p")]
    if output_type = "MP3" then
      let mp3_path := splitextRoot downloaded_file ++ ".mp3"
      pre ++ [.status "Converting downloaded file to MP3...",
              .proc (.ffmpegMp3 downloaded_file mp3_path),
              .finished ("MP3 saved: " ++ mp3_path)]
    else if convert ∧ output_type = "MP4" then
      let warn : List Event :=
        if final_height = 0 then
          [.status "Warning: could not detect source resolution; attempting conversion."]
        else []
      if target_resolution > final_height ∧ final_height > 0 then
        pre ++ warn ++
          [.finished ("Skipped conversion: source (" ++ intStr final_height ++
            "p) is lower than target (" ++ intStr target_resolution ++ "p). No upscaling.")]
      else if final_height = target_resolution then
        pre ++ warn ++
          [.finished ("Skipped conversion: source resolution equals target (" ++
            intStr final_height ++ "p).")]
      else
        let out_file := splitextRoot downloaded_file ++ "_" ++ intStr target_resolution ++ "p.mp4"
        pre ++ warn ++
          [.status ("Converting to " ++ intStr target_resolution ++ "p -> " ++ out_file),
           .proc (.ffmpegScale downloaded_file out_file target_resolution),
           .finished ("Conversion completed: " ++ out_file)]
    else
      pre ++ [.finished ("Download finished: " ++ downloaded_file)]

/-! ## ConvertFileWorker.run (source lines 161-211) -/

/-- The oracles of one ConvertFileWorker run: the filesystem (the list of
existing paths, for the os.path.exists check) and the raw outputs of the
two possible probe subprocesses. -/
structure ConvEnv where
  fs : List String
  probeRaw1 : Option String
  probeRaw2 : Option String

/-- The message of the TypeError Python raises at line 190 when
target_resolution is None; the try at line 162 catches it.  (CPython
quotes the operator and type names; the quotes are kept verbatim.) -/
def pyNoneCmpMsg : String :=
  "\x27>\x27 not supported between instances of \x27NoneType\x27 and \x27int\x27"

/-- ConvertFileWorker.run as its event trace.  target_resolution is an
Option Int because the constructor defaults it to None; the GUI passes an
int whenever the output type is MP4. -/
def ConvertFileWorker.run (env : ConvEnv) (input_path : String) (output_type : String)
    (target_resolution : Option Int) : List Event :=
  if env.fs.contains input_path = false then
    [.finished "Input file does not exist."]
  else if output_type = "MP3" ∨ output_type = "WAV" then
    let base := splitextRoot input_path
    if output_type = "MP3" then
      let out_path := base ++ ".mp3"
      [.status ("Converting to MP3: " ++ out_path),
       .proc (.ffmpegMp3 input_path out_path),
       .finished ("Audio saved: " ++ out_path)]
    else
      let out_path := base ++ ".wav"
      [.status ("Converting to WAV: " ++ out_path),
       .proc (.ffmpegWav input_path out_path),
       .finished ("Audio saved: " ++ out_path)]
  else if output_type = "MP4" then
    let hp := ffprobe_get_height input_path env.probeRaw1 env.probeRaw2
    let src_height := hp.1
    let pre : List Event :=
      hp.2.map Event.proc
      ++ [.status ("Source resolution detected: " ++ intStr src_height ++ "p")]
    if src_height = 0 then
      pre ++ [.status "Warning: couldn\x27t detect source height; aborting conversion.",
              .finished "Conversion aborted: unknown source resolution."]
    else
      match target_resolution with
      | none => pre ++ [.finished ("Error during conversion: " ++ pyNoneCmpMsg)]
      | some t =>
        if t > src_height then
          pre ++ [.finished ("Skipped conversion: source (" ++ intStr src_height ++
            "p) is lower than target (" ++ intStr t ++ "p). No upscaling.")]
        else if t = src_height then
          pre ++ [.finished ("Skipped conversion: source resolution equals target (" ++
            intStr src_height ++ "p).")]
        else
          let out_path := splitextRoot input_path ++ "_" ++ intStr t ++ "p.mp4"
          pre ++ [.status ("Converting to " ++ intStr t ++ "p -> " ++ out_path),
                  .proc (.ffmpegScale input_path out_path t),
                  .finished ("Conversion completed: " ++ out_path)]
  else
    [.finished "Unknown conversion parameters."]

/-! ## Helper lemmas -/

theorem contains_eq_true_iff (fs : List String) (x : String) :
    fs.contains x = true ↔ x ∈ fs := List.elem_iff

theorem findFreeIdx_spec (fs : List String) (save_dir base_filename ext : String) :
    ∀ i, ∃ k, i ≤ k ∧
      fs.contains (mkNumCand save_dir base_filename ext k) = false ∧
      findFreeIdx fs save_dir base_filename ext i = mkNumCand save_dir base_filename ext k ∧
      ∀ j, i ≤ j → j < k → fs.contains (mkNumCand save_dir base_filename ext j) = true := by
  intro i
  generalize hn : leastFreeGap fs save_dir base_filename ext i = n
  induction n using Nat.strong_induction_on generalizing i with
  | _ n ih =>
    by_cases hc : fs.contains (mkNumCand save_dir base_filename ext i) = false
    · refine ⟨i, Nat.le_refl i, hc, ?_, ?_⟩
      · rw [findFreeIdx, if_pos hc]
      · intro j h1 h2; omega
    · have hc' : fs.contains (mkNumCand save_dir base_filename ext i) = true := by
        cases h : fs.contains (mkNumCand save_dir base_filename ext i)
        · exact absurd h hc
        · rfl
      have hlt := leastFreeGap_succ_lt fs save_dir base_filename ext i hc'
      rw [hn] at hlt
      obtain ⟨k, hk1, hk2, hk3, hk4⟩ :=
        ih (leastFreeGap fs save_dir base_filename ext (i + 1)) hlt (i + 1) rfl
      refine ⟨k, by omega, hk2, ?_, ?_⟩
      · rw [findFreeIdx, if_neg hc]; exact hk3
      · intro j h1 h2
        rcases Nat.eq_or_lt_of_le h1 with heq | h1'
        · rw [← heq]; exact hc'
        · exact hk4 j (by omega) h2

theorem make_unique_fresh (fs : List String) (save_dir base_filename ext : String)
    (fallback_id : Option String) :
    fs.contains (make_unique_filepath fs save_dir base_filename ext fallback_id) = false := by
  unfold make_unique_filepath
  by_cases h1 : fs.contains (pjoin save_dir (base_filename ++ "." ++ ext)) = false
  · simp only [if_pos h1]; exact h1
  · simp only [if_neg h1]
    obtain ⟨k, _, hk2, hk3, _⟩ := findFreeIdx_spec fs save_dir base_filename ext 1
    cases fallback_id with
    | none => rw [hk3]; exact hk2
    | some fid =>
      by_cases h2 : fid = ""
      · simp only [h2, ne_eq, not_true_eq_false, if_false, hk3]; exact hk2
      · simp only [ne_eq, h2, not_false_eq_true, if_true]
        by_cases h3 :
            fs.contains (pjoin save_dir (base_filename ++ "_" ++ fid ++ "." ++ ext)) = false
        · simp only [if_pos h3]; exact h3
        · simp only [if_neg h3, hk3]; exact hk2

/-! ## Claim C3 -/

/-- C3: make_unique_filepath is collision-free with the fixed precedence
the claim states.  Over any directory state fs (the set of existing
paths): the plain candidate when it does not exist; else the fallback-id
candidate when the fallback id is non-empty and that candidate does not
exist; else the numeric candidate with the least suffix at least 1 that
does not exist; and the returned path never names an existing file. -/
theorem make_unique_filepath_spec :
    ∀ (fs : List String) (save_dir base_filename ext : String) (fallback_id : Option String),
    (fs.contains (pjoin save_dir (base_filename ++ "." ++ ext)) = false →
      make_unique_filepath fs save_dir base_filename ext fallback_id =
        pjoin save_dir (base_filename ++ "." ++ ext))
    ∧ (∀ fid, fallback_id = some fid → fid ≠ "" →
        fs.contains (pjoin save_dir (base_filename ++ "." ++ ext)) = true →
        fs.contains (pjoin save_dir (base_filename ++ "_" ++ fid ++ "." ++ ext)) = false →
        make_unique_filepath fs save_dir base_filename ext fallback_id =
          pjoin save_dir (base_filename ++ "_" ++ fid ++ "." ++ ext))
    ∧ (fs.contains (pjoin save_dir (base_filename ++ "." ++ ext)) = true →
        (fallback_id = none ∨ fallback_id = some "" ∨
          (∀ fid, fallback_id = some fid →
            fs.contains (pjoin save_dir (base_filename ++ "_" ++ fid ++ "." ++ ext)) = true)) →
        ∃ k, 1 ≤ k ∧
          make_unique_filepath fs save_dir base_filename ext fallback_id =
            mkNumCand save_dir base_filename ext k ∧
          fs.contains (mkNumCand save_dir base_filename ext k) = false ∧
          ∀ j, 1 ≤ j → j < k →
            fs.contains (mkNumCand save_dir base_filename ext j) = true)
    ∧ fs.contains (make_unique_filepath fs save_dir base_filename ext fallback_id) = false := by
  intro fs save_dir base_filename ext fallback_id
  refine ⟨?_, ?_, ?_, make_unique_fresh fs save_dir base_filename ext fallback_id⟩
  · intro h1
    unfold make_unique_filepath
    simp only [if_pos h1]
  · intro fid hfid hne h1 h2
    subst hfid
    simp only [make_unique_filepath, h1, Bool.true_eq_false, if_false, ne_eq, hne,
      not_false_eq_true, if_true, if_pos h2]
  · intro h1 h2
    obtain ⟨k, hk1, hk2, hk3, hk4⟩ := findFreeIdx_spec fs save_dir base_filename ext 1
    refine ⟨k, hk1, ?_, hk2, hk4⟩
    simp only [make_unique_filepath, h1, Bool.true_eq_false, if_false]
    rcases h2 with h2 | h2 | h2
    · rw [h2]; exact hk3
    · rw [h2]; simp only [ne_eq, not_true_eq_false, if_false]; exact hk3
    · cases fallback_id with
      | none => exact hk3
      | some fid =>
        by_cases hfe : fid = ""
        · simp only [hfe, ne_eq, not_true_eq_false, if_false]; exact hk3
        · simp only [ne_eq, hfe, not_false_eq_true, if_true]
          rw [h2 fid rfl]
          simp only [Bool.true_eq_false, if_false]
          exact hk3

/-- Witness for C3 at a concrete directory state: the plain candidate is
free, so it is returned. -/
theorem make_unique_filepath_spec_witness :
    make_unique_filepath ["d/x.mp4"] "d" "b" "mp4" none =
      pjoin "d" ("b" ++ "." ++ "mp4") :=
  (make_unique_filepath_spec ["d/x.mp4"] "d" "b" "mp4" none).1 (by decide)

/-! ## Claim C10 -/

/-- C10: the numeric-suffix loop terminates.  For every finite directory
state the loop started at 1 reaches a suffix k at least 1 whose candidate
does not exist and returns that candidate. -/
theorem numeric_suffix_loop_terminates :
    ∀ (fs : List String) (save_dir base_filename ext : String),
    ∃ k, 1 ≤ k ∧
      fs.contains (mkNumCand save_dir base_filename ext k) = false ∧
      findFreeIdx fs save_dir base_filename ext 1 = mkNumCand save_dir base_filename ext k := by
  intro fs save_dir base_filename ext
  obtain ⟨k, hk1, hk2, hk3, _⟩ := findFreeIdx_spec fs save_dir base_filename ext 1
  exact ⟨k, hk1, hk2, hk3⟩

/-! ## Claim C2 -/

/-- Counterexample to C2: an operation that writes an output file whose
chosen path names an existing file.  Converting the selected file
/d/x.mp4 to MP3 while /d/x.mp3 already exists invokes ffmpeg on the
existing path /d/x.mp3 (the source passes -y, so it is overwritten). -/
theorem chosen_output_path_can_exist :
    Event.proc (ExtProc.ffmpegMp3 "/d/x.mp4" "/d/x.mp3") ∈
      ConvertFileWorker.run ⟨["/d/x.mp4", "/d/x.mp3"], none, none⟩ "/d/x.mp4" "MP3" none
    ∧ (["/d/x.mp4", "/d/x.mp3"] : List String).contains "/d/x.mp3" = true := by
  constructor
  · show Event.proc (ExtProc.ffmpegMp3 "/d/x.mp4" "/d/x.mp3") ∈
      [Event.status "Converting to MP3: /d/x.mp3",
       Event.proc (ExtProc.ffmpegMp3 "/d/x.mp4" "/d/x.mp3"),
       Event.finished "Audio saved: /d/x.mp3"]
    exact List.mem_cons_of_mem _ (List.mem_cons_self _ _)
  · rfl

/-- C2 amended: only the download output path is guaranteed fresh.  The
path chosen through make_unique_filepath never names an existing file;
the conversion outputs are derived from the input filename with no
existence check and are handed to ffmpeg with -y, so they can name
existing files (see the counterexample). -/
theorem download_path_never_exists :
    ∀ (fs : List String) (save_dir base_filename ext : String) (fallback_id : Option String),
    fs.contains (make_unique_filepath fs save_dir base_filename ext fallback_id) = false :=
  make_unique_fresh

/-! ## Claim C7 -/

/-- C7: ffprobe_get_height is total (a Lean function, every raise inside
a try block being modelled by the none outcome of that block) and
defaults to 0: it returns the height parsed by the first try block that
yields one, and 0 when both fail; the fallback subprocess runs exactly
when the first try block yields nothing. -/
theorem ffprobe_get_height_spec :
    ∀ (path : String) (raw1 raw2 : Option String),
    (∀ h, probeAttempt raw1 = some h →
      ffprobe_get_height path raw1 raw2 = (h, [ExtProc.probeFfprobe path]))
    ∧ (∀ h, probeAttempt raw1 = none → probeAttempt raw2 = some h →
      ffprobe_get_height path raw1 raw2 =
        (h, [ExtProc.probeFfprobe path, ExtProc.probeFfmpeg path]))
    ∧ (probeAttempt raw1 = none → probeAttempt raw2 = none →
      ffprobe_get_height path raw1 raw2 =
        (0, [ExtProc.probeFfprobe path, ExtProc.probeFfmpeg path])) := by
  intro path raw1 raw2
  refine ⟨?_, ?_, ?_⟩
  · intro h h1; unfold ffprobe_get_height; rw [h1]
  · intro h h1 h2; unfold ffprobe_get_height; rw [h1, h2]
  · intro h1 h2; unfold ffprobe_get_height; rw [h1, h2]

/-- Witness for C7: the first probe yields garbage (int() raises, caught),
the second yields numeric output, so the height is 720 after both probes. -/
theorem ffprobe_get_height_spec_witness :
    ffprobe_get_height "v.mp4" (some "x") (some " 720 ") =
      (720, [ExtProc.probeFfprobe "v.mp4", ExtProc.probeFfmpeg "v.mp4"]) :=
  (ffprobe_get_height_spec "v.mp4" (some "x") (some " 720 ")).2.1 720 (by decide) (by decide)

/-! ## Character lemmas for clean_title -/

theorem mem_collapseWS : ∀ (b : Bool) (l : List Char) (c : Char),
    c ∈ collapseWS b l → c = ' ' ∨ (c ∈ l ∧ pyIsSpace c = false) := by
  intro b l
  induction l generalizing b with
  | nil => intro c hc; simp [collapseWS] at hc
  | cons a rest ih =>
    intro c hc
    simp only [collapseWS] at hc
    by_cases ha : pyIsSpace a = true
    · rw [if_pos ha] at hc
      cases b with
      | true =>
        simp only [if_pos rfl] at hc
        rcases ih true c hc with h | ⟨h1, h2⟩
        · exact Or.inl h
        · exact Or.inr ⟨List.mem_cons_of_mem a h1, h2⟩
      | false =>
        simp only [Bool.false_eq_true, if_false, List.mem_cons] at hc
        rcases hc with h | h
        · exact Or.inl h
        · rcases ih true c h with h | ⟨h1, h2⟩
          · exact Or.inl h
          · exact Or.inr ⟨List.mem_cons_of_mem a h1, h2⟩
    · rw [if_neg ha] at hc
      rw [List.mem_cons] at hc
      rcases hc with h | h
      · subst h
        refine Or.inr ⟨List.mem_cons_self c rest, ?_⟩
        cases hsp : pyIsSpace c
        · rfl
        · exact absurd hsp ha
      · rcases ih false c h with h | ⟨h1, h2⟩
        · exact Or.inl h
        · exact Or.inr ⟨List.mem_cons_of_mem a h1, h2⟩

theorem mem_pyStripL (x : List Char) (c : Char) (h : c ∈ pyStripL x) : c ∈ x := by
  rw [pyStripL, List.mem_reverse] at h
  have h2 : c ∈ (x.dropWhile pyIsSpace).reverse :=
    List.Sublist.mem h (List.dropWhile_sublist _)
  rw [List.mem_reverse] at h2
  exact List.Sublist.mem h2 (List.dropWhile_sublist _)

theorem sanitize_chars : ∀ (l : List Char) (c : Char), c ∈ sanitize l →
    (pyWordChar c = true ∨ c = ' ' ∨ c = '-') ∧ c.toNat ≤ 127 := by
  intro l c hc
  simp only [sanitize] at hc
  have hc1 := mem_pyStripL _ _ hc
  rcases mem_collapseWS false _ c hc1 with h | ⟨hmem, hns⟩
  · subst h; exact ⟨Or.inr (Or.inl rfl), by decide⟩
  · rw [List.mem_filter] at hmem
    obtain ⟨hsp, hpred⟩ := hmem
    constructor
    · simp only [Bool.or_eq_true] at hpred
      rcases hpred with (hw | hs) | hd
      · exact Or.inl hw
      · rw [hns] at hs; exact absurd hs (by decide)
      · right; right; exact eq_of_beq hd
    · rw [List.mem_map] at hsp
      obtain ⟨d, hd1, hd2⟩ := hsp
      by_cases hspec : specialChar d = true
      · rw [← hd2, if_pos hspec]; decide
      · rw [← hd2, if_neg hspec]
        rw [List.mem_filter] at hd1
        obtain ⟨hd3, _⟩ := hd1
        rw [List.mem_filter] at hd3
        exact of_decide_eq_true hd3.2

/-! ## Claim C5 -/

/-- C5: clean_title always returns a non-empty ASCII string of at most
120 characters containing none of the forbidden filename characters,
and returns "video" when the input is empty or sanitises to nothing;
the download base filename is clean_title of the title, optionally
followed by an underscore and clean_title of the uploader and by an
underscore and the timestamp, as the two rename checkboxes dictate. -/
theorem clean_title_spec :
    (∀ s : String,
      clean_title s ≠ ""
      ∧ (clean_title s).length ≤ 120
      ∧ (∀ c ∈ (clean_title s).data, c.toNat ≤ 127 ∧ c ∉ forbiddenChars)
      ∧ (s = "" → clean_title s = "video")
      ∧ ((sanitize s.data).take 120 = [] → clean_title s = "video"))
    ∧ (∀ (title uploader timestamp : String),
      buildBaseFilename title uploader false false timestamp = clean_title title
      ∧ (uploader ≠ "" →
          buildBaseFilename title uploader true false timestamp =
            clean_title title ++ "_" ++ clean_title uploader)
      ∧ buildBaseFilename title uploader false true timestamp =
          clean_title title ++ "_" ++ timestamp
      ∧ (uploader ≠ "" →
          buildBaseFilename title uploader true true timestamp =
            clean_title title ++ "_" ++ clean_title uploader ++ "_" ++ timestamp)
      ∧ (uploader = "" → ∀ ch : Bool,
          buildBaseFilename title uploader ch false timestamp = clean_title title)) := by
  constructor
  · intro s
    have hchars : ∀ c ∈ (clean_title s).data,
        (pyWordChar c = true ∨ c = ' ' ∨ c = '-') ∧ c.toNat ≤ 127 := by
      intro c hc
      by_cases hs : s = ""
      · rw [clean_title, if_pos hs] at hc
        exact (by decide :
          ∀ x ∈ ("video" : String).data,
            (pyWordChar x = true ∨ x = ' ' ∨ x = '-') ∧ x.toNat ≤ 127) c hc
      · simp only [clean_title, if_neg hs] at hc
        by_cases ht : (sanitize s.data).take 120 = []
        · rw [if_pos ht] at hc
          exact (by decide :
            ∀ x ∈ ("video" : String).data,
              (pyWordChar x = true ∨ x = ' ' ∨ x = '-') ∧ x.toNat ≤ 127) c hc
        · rw [if_neg ht] at hc
          have hc2 : c ∈ sanitize s.data :=
            List.Sublist.mem hc (List.take_sublist _ _)
          exact sanitize_chars s.data c hc2
    refine ⟨?_, ?_, ?_, ?_, ?_⟩
    · by_cases hs : s = ""
      · rw [clean_title, if_pos hs]; decide
      · simp only [clean_title, if_neg hs]
        by_cases ht : (sanitize s.data).take 120 = []
        · rw [if_pos ht]; decide
        · rw [if_neg ht]
          intro heq
          exact ht (congrArg String.data heq)
    · by_cases hs : s = ""
      · rw [clean_title, if_pos hs]; decide
      · simp only [clean_title, if_neg hs]
        by_cases ht : (sanitize s.data).take 120 = []
        · rw [if_pos ht]; decide
        · rw [if_neg ht]
          show ((sanitize s.data).take 120).length ≤ 120
          simp [List.length_take]
    · intro c hc
      obtain ⟨hgood, hascii⟩ := hchars c hc
      refine ⟨hascii, ?_⟩
      intro hmem
      exact (by decide :
        ∀ b ∈ forbiddenChars, ¬(pyWordChar b = true ∨ b = ' ' ∨ b = '-')) c hmem hgood
    · intro hs; rw [clean_title, if_pos hs]
    · intro ht
      by_cases hs : s = ""
      · rw [clean_title, if_pos hs]
      · simp only [clean_title, if_neg hs, if_pos ht]
  · intro title uploader timestamp
    refine ⟨?_, ?_, ?_, ?_, ?_⟩
    · simp [buildBaseFilename]
    · intro hu; simp [buildBaseFilename, hu]
    · simp [buildBaseFilename]
    · intro hu; simp [buildBaseFilename, hu]
    · intro hu ch; simp [buildBaseFilename, hu]

/-- Witness for C5: the empty title gives the literal "video", and a title
with forbidden characters is sanitised. -/
theorem clean_title_spec_witness :
    clean_title "" = "video" ∧ clean_title "Video: #1 <Test>" ≠ "" :=
  ⟨(clean_title_spec.1 "").2.2.2.1 rfl, (clean_title_spec.1 "Video: #1 <Test>").1⟩

/-! ## Trace lemmas -/

@[simp] theorem finishedMsgs_nil : finishedMsgs [] = [] := rfl

@[simp] theorem finishedMsgs_cons_status (m : String) (l : List Event) :
    finishedMsgs (Event.status m :: l) = finishedMsgs l := rfl

@[simp] theorem finishedMsgs_cons_proc (p : ExtProc) (l : List Event) :
    finishedMsgs (Event.proc p :: l) = finishedMsgs l := rfl

@[simp] theorem finishedMsgs_cons_finished (m : String) (l : List Event) :
    finishedMsgs (Event.finished m :: l) = m :: finishedMsgs l := rfl

@[simp] theorem finishedMsgs_append (l1 l2 : List Event) :
    finishedMsgs (l1 ++ l2) = finishedMsgs l1 ++ finishedMsgs l2 :=
  List.filterMap_append l1 l2 _

@[simp] theorem finishedMsgs_map_proc (ps : List ExtProc) :
    finishedMsgs (ps.map Event.proc) = [] := by
  induction ps with
  | nil => rfl
  | cons p rest ih => simpa using ih

@[simp] theorem statusMsgs_nil : statusMsgs [] = [] := rfl

@[simp] theorem statusMsgs_cons_status (m : String) (l : List Event) :
    statusMsgs (Event.status m :: l) = m :: statusMsgs l := rfl

@[simp] theorem statusMsgs_cons_proc (p : ExtProc) (l : List Event) :
    statusMsgs (Event.proc p :: l) = statusMsgs l := rfl

@[simp] theorem statusMsgs_cons_finished (m : String) (l : List Event) :
    statusMsgs (Event.finished m :: l) = statusMsgs l := rfl

@[simp] theorem statusMsgs_append (l1 l2 : List Event) :
    statusMsgs (l1 ++ l2) = statusMsgs l1 ++ statusMsgs l2 :=
  List.filterMap_append l1 l2 _

@[simp] theorem statusMsgs_map_proc (ps : List ExtProc) :
    statusMsgs (ps.map Event.proc) = [] := by
  induction ps with
  | nil => rfl
  | cons p rest ih => simpa using ih

@[simp] theorem procsOf_nil : procsOf [] = [] := rfl

@[simp] theorem procsOf_cons_status (m : String) (l : List Event) :
    procsOf (Event.status m :: l) = procsOf l := rfl

@[simp] theorem procsOf_cons_proc (p : ExtProc) (l : List Event) :
    procsOf (Event.proc p :: l) = p :: procsOf l := rfl

@[simp] theorem procsOf_cons_finished (m : String) (l : List Event) :
    procsOf (Event.finished m :: l) = procsOf l := rfl

@[simp] theorem procsOf_append (l1 l2 : List Event) :
    procsOf (l1 ++ l2) = procsOf l1 ++ procsOf l2 :=
  List.filterMap_append l1 l2 _

@[simp] theorem procsOf_map_proc (ps : List ExtProc) :
    procsOf (ps.map Event.proc) = ps := by
  induction ps with
  | nil => rfl
  | cons p rest ih => simpa using ih

@[simp] theorem probe_procs_no_scale (path : String) (raw1 raw2 : Option String) :
    ((ffprobe_get_height path raw1 raw2).2).any isScaleProc = false := by
  unfold ffprobe_get_height
  cases probeAttempt raw1
  · cases probeAttempt raw2 <;> rfl
  · rfl

@[simp] theorem probe_procs_len (path : String) (raw1 raw2 : Option String) :
    ((ffprobe_get_height path raw1 raw2).2).length ≤ 2 := by
  unfold ffprobe_get_height
  cases probeAttempt raw1
  · cases probeAttempt raw2 <;> simp
  · simp

@[simp] theorem detect_procs_no_scale (env : DlEnv) (df : String) (ih : Option Int) :
    ((detectHeight env df ih).2).any isScaleProc = false := by
  cases ih with
  | none => exact probe_procs_no_scale df env.probeRaw1 env.probeRaw2
  | some h =>
    simp only [detectHeight]
    by_cases h0 : h = 0
    · rw [if_pos h0]; exact probe_procs_no_scale df env.probeRaw1 env.probeRaw2
    · rw [if_neg h0]; rfl

@[simp] theorem detect_procs_len (env : DlEnv) (df : String) (ih : Option Int) :
    ((detectHeight env df ih).2).length ≤ 2 := by
  cases ih with
  | none => exact probe_procs_len df env.probeRaw1 env.probeRaw2
  | some h =>
    simp only [detectHeight]
    by_cases h0 : h = 0
    · rw [if_pos h0]; exact probe_procs_len df env.probeRaw1 env.probeRaw2
    · rw [if_neg h0]; simp

theorem getLast?_app {l1 l2 : List Event} {e : Event} (h : l2.getLast? = some e) :
    (l1 ++ l2).getLast? = some e := by
  have hne : l2 ≠ [] := by
    intro hnil; rw [hnil] at h; exact Option.noConfusion h
  rw [List.getLast?_append_of_ne_nil _ hne, h]

/-! ## Claim C4 -/

/-- C4: each worker run is total and always ends by emitting exactly one
finished_signal message (the last event of the trace); when the modelled
raising site fires (the extractor call in DownloadWorker, the comparison
of the None target resolution in ConvertFileWorker) the caught error
text is surfaced inside that message. -/
theorem workers_catch_and_finish :
    (∀ (env : DlEnv) (outtmpl : String) (convert : Bool) (t : Int) (otype : String),
      ∃ m, finishedMsgs (DownloadWorker.run env outtmpl convert t otype) = [m] ∧
        (DownloadWorker.run env outtmpl convert t otype).getLast? = some (Event.finished m))
    ∧ (∀ (cenv : ConvEnv) (input otype : String) (tr : Option Int),
      ∃ m, finishedMsgs (ConvertFileWorker.run cenv input otype tr) = [m] ∧
        (ConvertFileWorker.run cenv input otype tr).getLast? = some (Event.finished m))
    ∧ (∀ (env : DlEnv) (outtmpl : String) (convert : Bool) (t : Int) (otype e : String),
      env.extractOutcome = Except.error e →
      finishedMsgs (DownloadWorker.run env outtmpl convert t otype) =
        ["Error during download/conversion: " ++ e])
    ∧ (∀ (cenv : ConvEnv) (input : String),
      cenv.fs.contains input = true →
      (ffprobe_get_height input cenv.probeRaw1 cenv.probeRaw2).1 ≠ 0 →
      finishedMsgs (ConvertFileWorker.run cenv input "MP4" none) =
        ["Error during conversion: " ++ pyNoneCmpMsg]) := by
  refine ⟨?_, ?_, ?_, ?_⟩
  · intro env outtmpl convert t otype
    cases hext : env.extractOutcome with
    | error e =>
      simp only [DownloadWorker.run, hext]
      exact ⟨_, rfl, rfl⟩
    | ok pr =>
      obtain ⟨df, ih⟩ := pr
      simp only [DownloadWorker.run, hext]
      split_ifs <;>
        exact ⟨_, by simp <;> rfl, by repeat first | rfl | apply getLast?_app⟩
  · intro cenv input otype tr
    cases tr with
    | none =>
      simp only [ConvertFileWorker.run]
      split_ifs <;>
        exact ⟨_, by simp <;> rfl, by repeat first | rfl | apply getLast?_app⟩
    | some tv =>
      simp only [ConvertFileWorker.run]
      split_ifs <;>
        exact ⟨_, by simp <;> rfl, by repeat first | rfl | apply getLast?_app⟩
  · intro env outtmpl convert t otype e hext
    simp only [DownloadWorker.run, hext]
    rfl
  · intro cenv input h1 h2
    simp only [ConvertFileWorker.run, h1, Bool.true_eq_false, if_false]
    rw [if_pos trivial, if_neg h2]
    simp

/-- Witness for C4: an extractor failure with message boom is caught and
surfaced through the finished signal. -/
theorem workers_catch_and_finish_witness :
    finishedMsgs (DownloadWorker.run ⟨Except.error "boom", none, none⟩ "t" false 720 "MP4") =
      ["Error during download/conversion: " ++ "boom"] :=
  workers_catch_and_finish.2.2.1 ⟨Except.error "boom", none, none⟩ "t" false 720 "MP4" "boom" rfl

/-! ## Claims C1, C8, C9, C6 -/

theorem resolution_pos {t : Int} (h : t ∈ resolutionOptions) : 0 < t := by
  simp only [resolutionOptions, List.mem_cons, List.not_mem_nil, or_false] at h
  rcases h with rfl | rfl | rfl | rfl <;> decide

/-- C1: neither worker upscales.  Whenever the detected source height h
is positive and the requested target t exceeds it, the conversion branch
of DownloadWorker.run and of ConvertFileWorker.run invokes no
transcoding subprocess and emits the No-upscaling skip message as the
finished signal. -/
theorem no_upscaling :
    (∀ (env : DlEnv) (outtmpl : String) (t : Int) (df : String) (ih : Option Int),
      env.extractOutcome = Except.ok (df, ih) →
      0 < (detectHeight env df ih).1 →
      (detectHeight env df ih).1 < t →
      hasTranscode (DownloadWorker.run env outtmpl true t "MP4") = false ∧
      finishedMsgs (DownloadWorker.run env outtmpl true t "MP4") =
        ["Skipped conversion: source (" ++ intStr (detectHeight env df ih).1 ++
          "p) is lower than target (" ++ intStr t ++ "p). No upscaling."])
    ∧ (∀ (cenv : ConvEnv) (input : String) (t : Int),
      cenv.fs.contains input = true →
      0 < (ffprobe_get_height input cenv.probeRaw1 cenv.probeRaw2).1 →
      (ffprobe_get_height input cenv.probeRaw1 cenv.probeRaw2).1 < t →
      hasTranscode (ConvertFileWorker.run cenv input "MP4" (some t)) = false ∧
      finishedMsgs (ConvertFileWorker.run cenv input "MP4" (some t)) =
        ["Skipped conversion: source (" ++
          intStr (ffprobe_get_height input cenv.probeRaw1 cenv.probeRaw2).1 ++
          "p) is lower than target (" ++ intStr t ++ "p). No upscaling."]) := by
  constructor
  · intro env outtmpl t df ih hext hpos hlt
    simp only [DownloadWorker.run, hext]
    rw [if_pos (⟨hlt, hpos⟩ : t > (detectHeight env df ih).1 ∧ (detectHeight env df ih).1 > 0)]
    rw [if_neg (by omega : ¬(detectHeight env df ih).1 = 0)]
    constructor
    · simp [hasTranscode, isScaleProc]
    · simp
  · intro cenv input t h1 hpos hlt
    simp only [ConvertFileWorker.run, h1, Bool.true_eq_false, if_false]
    rw [if_pos trivial]
    rw [if_neg (by omega : ¬(ffprobe_get_height input cenv.probeRaw1 cenv.probeRaw2).1 = 0)]
    rw [if_pos (hlt : (ffprobe_get_height input cenv.probeRaw1 cenv.probeRaw2).1 < t)]
    constructor
    · simp [hasTranscode, isScaleProc]
    · simp

/-- Witness for C1: a 480p source with a 1080p target is skipped by both
workers without any transcoding subprocess. -/
theorem no_upscaling_witness :
    hasTranscode (DownloadWorker.run ⟨Except.ok ("f.mp4", some 480), none, none⟩
      "t" true 1080 "MP4") = false ∧
    hasTranscode (ConvertFileWorker.run ⟨["in.mp4"], some "480", none⟩
      "in.mp4" "MP4" (some 1080)) = false :=
  ⟨(no_upscaling.1 ⟨Except.ok ("f.mp4", some 480), none, none⟩ "t" 1080 "f.mp4" (some 480)
      rfl (by decide) (by decide)).1,
   (no_upscaling.2 ⟨["in.mp4"], some "480", none⟩ "in.mp4" 1080
      (by decide) (by decide) (by decide)).1⟩

/-- C8: equal resolutions are skipped.  When the detected source height
equals the requested target resolution (one of the GUI resolutions),
both workers emit the equals-target skip message and invoke no
transcoding subprocess. -/
theorem equal_resolution_skip :
    (∀ (env : DlEnv) (outtmpl : String) (t : Int) (df : String) (ih : Option Int),
      env.extractOutcome = Except.ok (df, ih) →
      t ∈ resolutionOptions →
      (detectHeight env df ih).1 = t →
      hasTranscode (DownloadWorker.run env outtmpl true t "MP4") = false ∧
      finishedMsgs (DownloadWorker.run env outtmpl true t "MP4") =
        ["Skipped conversion: source resolution equals target (" ++ intStr t ++ "p)."])
    ∧ (∀ (cenv : ConvEnv) (input : String) (t : Int),
      cenv.fs.contains input = true →
      t ∈ resolutionOptions →
      (ffprobe_get_height input cenv.probeRaw1 cenv.probeRaw2).1 = t →
      hasTranscode (ConvertFileWorker.run cenv input "MP4" (some t)) = false ∧
      finishedMsgs (ConvertFileWorker.run cenv input "MP4" (some t)) =
        ["Skipped conversion: source resolution equals target (" ++ intStr t ++ "p)."]) := by
  constructor
  · intro env outtmpl t df ih hext hres heq
    have htpos := resolution_pos hres
    simp only [DownloadWorker.run, hext]
    rw [if_neg (by omega :
      ¬(t > (detectHeight env df ih).1 ∧ (detectHeight env df ih).1 > 0))]
    rw [if_pos (heq : (detectHeight env df ih).1 = t)]
    rw [if_neg (by omega : ¬(detectHeight env df ih).1 = 0)]
    constructor
    · simp [hasTranscode, isScaleProc]
    · simp [heq]
  · intro cenv input t h1 hres heq
    have htpos := resolution_pos hres
    simp only [ConvertFileWorker.run, h1, Bool.true_eq_false, if_false]
    rw [if_pos trivial]
    rw [if_neg (by omega : ¬(ffprobe_get_height input cenv.probeRaw1 cenv.probeRaw2).1 = 0)]
    rw [if_neg (by omega : ¬t > (ffprobe_get_height input cenv.probeRaw1 cenv.probeRaw2).1)]
    rw [if_pos (heq.symm : t = (ffprobe_get_height input cenv.probeRaw1 cenv.probeRaw2).1)]
    constructor
    · simp [hasTranscode, isScaleProc]
    · simp [heq]

/-- Witness for C8: a 720p source with a 720p target is skipped by both
workers with the equals-target message. -/
theorem equal_resolution_skip_witness :
    finishedMsgs (DownloadWorker.run ⟨Except.ok ("f.mp4", some 720), none, none⟩
      "t" true 720 "MP4") =
      ["Skipped conversion: source resolution equals target (" ++ intStr 720 ++ "p)."] ∧
    finishedMsgs (ConvertFileWorker.run ⟨["in.mp4"], some "720", none⟩
      "in.mp4" "MP4" (some 720)) =
      ["Skipped conversion: source resolution equals target (" ++ intStr 720 ++ "p)."] :=
  ⟨(equal_resolution_skip.1 ⟨Except.ok ("f.mp4", some 720), none, none⟩ "t" 720 "f.mp4"
      (some 720) rfl (by decide) (by decide)).2,
   (equal_resolution_skip.2 ⟨["in.mp4"], some "720", none⟩ "in.mp4" 720
      (by decide) (by decide) (by decide)).2⟩

/-- C9: the workers diverge on an undetectable source height.  For an MP4
target with detected height 0, ConvertFileWorker.run aborts (no
transcoding subprocess, the aborted finished message, a warning status),
whereas DownloadWorker.run emits a warning status and attempts the
conversion anyway (the transcoding subprocess runs to completion). -/
theorem unknown_height_divergence :
    (∀ (cenv : ConvEnv) (input : String) (t : Int),
      cenv.fs.contains input = true →
      (ffprobe_get_height input cenv.probeRaw1 cenv.probeRaw2).1 = 0 →
      hasTranscode (ConvertFileWorker.run cenv input "MP4" (some t)) = false ∧
      finishedMsgs (ConvertFileWorker.run cenv input "MP4" (some t)) =
        ["Conversion aborted: unknown source resolution."] ∧
      "Warning: couldn\x27t detect source height; aborting conversion." ∈
        statusMsgs (ConvertFileWorker.run cenv input "MP4" (some t)))
    ∧ (∀ (env : DlEnv) (outtmpl : String) (t : Int) (df : String) (ih : Option Int),
      env.extractOutcome = Except.ok (df, ih) →
      t ∈ resolutionOptions →
      (detectHeight env df ih).1 = 0 →
      "Warning: could not detect source resolution; attempting conversion." ∈
        statusMsgs (DownloadWorker.run env outtmpl true t "MP4") ∧
      hasTranscode (DownloadWorker.run env outtmpl true t "MP4") = true ∧
      finishedMsgs (DownloadWorker.run env outtmpl true t "MP4") =
        ["Conversion completed: " ++
          (splitextRoot df ++ "_" ++ intStr t ++ "p.mp4")]) := by
  constructor
  · intro cenv input t h1 h0
    simp only [ConvertFileWorker.run, h1, Bool.true_eq_false, if_false]
    rw [if_pos trivial]
    rw [if_pos (h0 : (ffprobe_get_height input cenv.probeRaw1 cenv.probeRaw2).1 = 0)]
    refine ⟨?_, ?_, ?_⟩
    · simp [hasTranscode, isScaleProc]
    · simp
    · simp
  · intro env outtmpl t df ih hext hres h0
    have htpos := resolution_pos hres
    simp only [DownloadWorker.run, hext]
    rw [if_neg (by omega :
      ¬(t > (detectHeight env df ih).1 ∧ (detectHeight env df ih).1 > 0))]
    rw [if_neg (by omega : ¬(detectHeight env df ih).1 = t)]
    rw [if_pos (h0 : (detectHeight env df ih).1 = 0)]
    refine ⟨?_, ?_, ?_⟩
    · simp
    · simp [hasTranscode, isScaleProc]
    · simp

/-- Witness for C9: with both probes failing the selected-file worker
aborts while the download worker transcodes anyway. -/
theorem unknown_height_divergence_witness :
    hasTranscode (ConvertFileWorker.run ⟨["in.mp4"], none, none⟩
      "in.mp4" "MP4" (some 720)) = false ∧
    hasTranscode (DownloadWorker.run ⟨Except.ok ("f.mp4", none), none, none⟩
      "t" true 720 "MP4") = true :=
  ⟨(unknown_height_divergence.1 ⟨["in.mp4"], none, none⟩ "in.mp4" 720
      (by decide) (by decide)).1,
   (unknown_height_divergence.2 ⟨Except.ok ("f.mp4", none), none, none⟩ "t" 720 "f.mp4"
      none rfl (by decide) (by decide)).2.1⟩

/-- Counterexample to C6: a single DownloadWorker run that performs two
blocking external-process invocations, the yt-dlp download and then the
ffmpeg MP3 conversion. -/
theorem single_external_call_counterexample :
    ¬ ((procsOf (DownloadWorker.run ⟨Except.ok ("f.mp4", some 720), none, none⟩
      "t" false 1080 "MP3")).length ≤ 1) := by decide

/-- C6 amended: each worker performs finitely many blocking external
calls, sequentially, before finishing: at most 4 in DownloadWorker.run
(the download, up to two height probes, at most one conversion) and at
most 3 in ConvertFileWorker.run (up to two height probes, at most one
conversion). -/
theorem workers_bounded_external_calls :
    (∀ (env : DlEnv) (outtmpl : String) (convert : Bool) (t : Int) (otype : String),
      (procsOf (DownloadWorker.run env outtmpl convert t otype)).length ≤ 4)
    ∧ (∀ (cenv : ConvEnv) (input otype : String) (tr : Option Int),
      (procsOf (ConvertFileWorker.run cenv input otype tr)).length ≤ 3) := by
  constructor
  · intro env outtmpl convert t otype
    cases hext : env.extractOutcome with
    | error e => simp [DownloadWorker.run, hext]
    | ok pr =>
      obtain ⟨df, ih⟩ := pr
      have hd := detect_procs_len env df ih
      simp only [DownloadWorker.run, hext]
      split_ifs <;> simp <;> omega
  · intro cenv input otype tr
    have hp := probe_procs_len input cenv.probeRaw1 cenv.probeRaw2
    cases tr with
    | none =>
      simp only [ConvertFileWorker.run]
      split_ifs <;> simp <;> omega
    | some tv =>
      simp only [ConvertFileWorker.run]
      split_ifs <;> simp <;> omega
